import Mathlib

/-!
Shallow embedding of the hsson/ring key-rotation engine.

The embedding follows the most complete variant of the repository:
the Keychain with `RotatedAt`/`VerifiableUntil` fields, the lock-based
storage contract, and the in-memory store with lock tokens.

Modelling conventions:
* `time.Time` and `time.Duration` are mathematical integers (`Int`);
  `t.After(u)` is the strict comparison `u < t`.
* RSA private keys are abstract handles (`Nat`); the x509 marshal/parse
  functions are modelled on an inductive byte-blob type `KeyData` that
  distinguishes well-formed PKCS8/PKIX encodings from corrupt data and
  from encodings of non-RSA keys.
* External effects (rsa.GenerateKey, nanoid.Generate, the x509 marshal
  calls, and the fresh lock-token generator) are supplied by an oracle
  record `Ext`, so every failure path of the Go code is representable.
* Go panics are modelled as `Option`-`none` results where a claim needs
  to see them; functions that can only fail by returning an error use
  `Except`.
-/

namespace HRing

/-- Errors of the ring package and its store contract.
`keyRotation` wraps an underlying cause, mirroring
`fmt.Errorf("%w: %v", ErrKeyRotation, err)`. -/
inductive Error where
  /-- `ring.ErrKeyNotFound` -/
  | keyNotFound
  /-- `store.ErrKeyIDConflict` -/
  | keyIDConflict
  /-- `store.ErrInvalidLock` -/
  | invalidLock
  /-- `store.ErrLockOccupied` -/
  | lockOccupied
  /-- an x509 parse failure (`ParsePKCS8PrivateKey` / `ParsePKIXPublicKey`) -/
  | parseFailure
  /-- "key has invalid type": parsed but not an RSA key -/
  | invalidKeyType
  /-- "stored public key has unknown type" (ListVerifiers) -/
  | unknownPublicKeyType
  /-- failure of an external generator (rsa.GenerateKey / nanoid.Generate) -/
  | generatorFailure
  /-- `ring.ErrKeyRotation` wrapping the underlying cause -/
  | keyRotation (cause : Error)
  deriving DecidableEq, Repr

/-- Serialized key bytes (`store.Key.Data`), modelled as an inductive
datatype so parsing can fail on corrupt blobs and on non-RSA keys. -/
inductive KeyData where
  /-- PKCS8 encoding of the RSA private key with handle `k` -/
  | pkcs8Private (k : Nat)
  /-- a PKCS8 blob that parses but holds a non-RSA key -/
  | pkcs8OtherAlg (n : Nat)
  /-- PKIX encoding of the public half of the RSA key with handle `k` -/
  | pkixPublic (k : Nat)
  /-- a PKIX blob that parses but holds a non-RSA key -/
  | pkixOtherAlg (n : Nat)
  /-- bytes that fail to parse altogether -/
  | corrupt (n : Nat)
  deriving DecidableEq, Repr

/-- Result of `x509.ParsePKCS8PrivateKey`: an `interface{}` that is then
type-asserted to `*rsa.PrivateKey`. -/
inductive PKCS8Value where
  | rsa (k : Nat)
  | other (n : Nat)
  deriving DecidableEq, Repr

/-- Result of `x509.ParsePKIXPublicKey` before the `*rsa.PublicKey`
type assertion. -/
inductive PKIXValue where
  | rsa (k : Nat)
  | other (n : Nat)
  deriving DecidableEq, Repr

/-- `x509.ParsePKCS8PrivateKey` -/
def parsePKCS8PrivateKey : KeyData → Except Error PKCS8Value
  | .pkcs8Private k => .ok (.rsa k)
  | .pkcs8OtherAlg n => .ok (.other n)
  | _ => .error .parseFailure

/-- `x509.ParsePKIXPublicKey` -/
def parsePKIXPublicKey : KeyData → Except Error PKIXValue
  | .pkixPublic k => .ok (.rsa k)
  | .pkixOtherAlg n => .ok (.other n)
  | _ => .error .parseFailure

/-- `publicKeyIDPrefix = "pub:"`: the namespace marker put in front of a
key-pair id to form the id of the stored public record. -/
def pubKeyIDNamespace : String := "pub:"

/-- `strings.TrimPrefix(s, p)`: drops `p` from the front of `s` when it
starts with `p`, otherwise returns `s` unchanged (stated over the
character lists so it evaluates inside the kernel). -/
def stringTrimFront (s p : String) : String :=
  if p.data.isPrefixOf s.data then ⟨s.data.drop p.data.length⟩ else s

namespace Store

/-- `store.Key`: a persisted key record. -/
structure Key where
  id : String
  isPrivate : Bool
  expiresAt : Int
  data : KeyData
  deriving DecidableEq, Repr

/-- `store.KeyList.SortByExpiresAt` (Go `sort.Slice` with an
`ExpiresAt.Before` comparator): sort ascending by expiry. -/
def sortByExpiresAt (kl : List Key) : List Key :=
  kl.insertionSort (fun a b => a.expiresAt ≤ b.expiresAt)

end Store

/-- `ring.Options` (durations in the same integral units as the clock). -/
structure Options where
  rotationFrequency : Int
  verificationPeriod : Int
  keySize : Int
  idAlphabet : String
  idLength : Int
  deriving DecidableEq, Repr

/-- `defaultOptions` -/
def defaultOptions : Options :=
  { rotationFrequency := 3600000000000
    verificationPeriod := 7200000000000
    keySize := 2048
    idAlphabet := "abcdefghijklmnopqrstuvwxyzABCDEFGHIJKLMNOPQRSTUVWXYZ"
    idLength := 8 }

/-- The option-normalization prelude of `NewWithOptions`: applies the
defaults for zero-valued fields and rejects (Go: panics, modelled as
`none`) a configuration whose `VerificationPeriod` is smaller than its
`RotationFrequency`. -/
def newWithOptionsValidate (options : Options) : Option Options :=
  let options :=
    if options.rotationFrequency = 0 then
      { options with rotationFrequency := defaultOptions.rotationFrequency }
    else options
  let options :=
    if options.verificationPeriod = 0 then
      { options with verificationPeriod := options.rotationFrequency * 2 }
    else options
  if options.verificationPeriod < options.rotationFrequency then none
  else
    let options :=
      if options.keySize = 0 then
        { options with keySize := defaultOptions.keySize }
      else options
    let options :=
      if options.idAlphabet = "" then
        { options with idAlphabet := defaultOptions.idAlphabet }
      else options
    let options :=
      if options.idLength = 0 then
        { options with idLength := defaultOptions.idLength }
      else options
    some options

/-- `ring.SigningKey` -/
structure SigningKey where
  id : String
  key : Nat
  rotatedAt : Int
  verifiableUntil : Int
  deriving DecidableEq, Repr

/-- `ring.VerifierKey` -/
structure VerifierKey where
  id : String
  key : Nat
  expiresAt : Int
  deriving DecidableEq, Repr

/-- Oracle for the external effects the engine calls out to:
key generation, id generation, the x509 marshal calls and the lock-token
generator. Each fallible one may return any error, so every failure
path of the Go code is representable. -/
structure Ext where
  /-- `rsa.GenerateKey(rand.Reader, keySize)` -/
  genRSAKey : Except Error Nat
  /-- `nanoid.Generate(alphabet, length)` -/
  genID : Except Error String
  /-- `x509.MarshalPKCS8PrivateKey` -/
  marshalPriv : Nat → Except Error KeyData
  /-- `x509.MarshalPKIXPublicKey` on the public half -/
  marshalPub : Nat → Except Error KeyData
  /-- the fresh token `nanoid.Must(32)` the inmem store mints in `Lock` -/
  freshLockToken : String

/-- The standard oracle behaviour of the marshal calls: for RSA keys
produced by `rsa.GenerateKey` they always succeed with the matching
well-formed encoding. -/
def stdMarshalPriv (k : Nat) : Except Error KeyData := .ok (.pkcs8Private k)

/-- See `stdMarshalPriv`. -/
def stdMarshalPub (k : Nat) : Except Error KeyData := .ok (.pkixPublic k)

/-- `createNewSigningKey`: generates a key and an id through the oracle
and stamps `rotatedAt = now + rotationFrequency`,
`verifiableUntil = now + verificationPeriod`. -/
def createNewSigningKey (ext : Ext) (options : Options) (now : Int) :
    Except Error SigningKey := do
  let privateKey ← ext.genRSAKey
  let id ← ext.genID
  .ok { id := id
        key := privateKey
        rotatedAt := now + options.rotationFrequency
        verifiableUntil := now + options.verificationPeriod }

/-- `createStoreKeyPairFromSigningKey`: serializes a signing key into its
private record (`expiresAt = rotatedAt`) and public record
(id namespaced, `expiresAt = verifiableUntil`). -/
def createStoreKeyPairFromSigningKey (ext : Ext) (signingKey : SigningKey) :
    Except Error (Store.Key × Store.Key) := do
  let privateKeyData ← ext.marshalPriv signingKey.key
  let privateStoreKey : Store.Key :=
    { id := signingKey.id
      isPrivate := true
      expiresAt := signingKey.rotatedAt
      data := privateKeyData }
  let publicKeyData ← ext.marshalPub signingKey.key
  let publicStoreKey : Store.Key :=
    { id := pubKeyIDNamespace ++ signingKey.id
      isPrivate := false
      expiresAt := signingKey.verifiableUntil
      data := publicKeyData }
  .ok (privateStoreKey, publicStoreKey)

/-- `storedPrivateKeyToSigningKey`: parses a stored private record back
into a signing key, recomputing
`verifiableUntil = expiresAt + verificationPeriod - rotationFrequency`. -/
def storedPrivateKeyToSigningKey (options : Options) (storedKey : Store.Key) :
    Except Error SigningKey :=
  match parsePKCS8PrivateKey storedKey.data with
  | .error _ => .error .parseFailure
  | .ok (.other _) => .error .invalidKeyType
  | .ok (.rsa privateKey) =>
      .ok { id := storedKey.id
            key := privateKey
            rotatedAt := storedKey.expiresAt
            verifiableUntil :=
              storedKey.expiresAt + options.verificationPeriod
                - options.rotationFrequency }

/-! ## The in-memory store (store/inmem, lock-token variant) -/

namespace Store

/-- `inmemStore`: a map from id to record plus the currently held
advisory lock token (`nil` pointer = `none`). The Go map is modelled as
an association list mutated only through `mapInsert`. -/
structure InmemStore where
  data : List Key
  currentLockToken : Option String
  deriving DecidableEq, Repr

/-- Insertion into the Go map `data[key.ID] = key`: replaces an existing
record with the same id, otherwise appends. -/
def mapInsert (data : List Key) (key : Key) : List Key :=
  if data.any (fun k => k.id = key.id) then
    data.map (fun k => if k.id = key.id then key else k)
  else data ++ [key]

/-- `inmemStore.Add(lock, keys...)`: rejects a mismatched token while a
lock is held, then checks the whole batch for id conflicts before
writing anything, so a conflicting batch writes nothing. Note the Go
guard `currentLockToken != nil && *currentLockToken != lock`: with no
lock held, the add proceeds for any token. -/
def InmemStore.add (s : InmemStore) (lock : String) (keys : List Key) :
    Except Error InmemStore :=
  match s.currentLockToken with
  | some held =>
      if held ≠ lock then .error .invalidLock
      else if keys.any (fun key => s.data.any (fun k => k.id = key.id)) then
        .error .keyIDConflict
      else .ok { s with data := keys.foldl mapInsert s.data }
  | none =>
      if keys.any (fun key => s.data.any (fun k => k.id = key.id)) then
        .error .keyIDConflict
      else .ok { s with data := keys.foldl mapInsert s.data }

/-- `inmemStore.Find(id)` -/
def InmemStore.find (s : InmemStore) (id : String) : Except Error Key :=
  match s.data.find? (fun k => k.id = id) with
  | some key => .ok key
  | none => .error .keyNotFound

/-- `inmemStore.Delete(id)`: never an error, absent id is a no-op. -/
def InmemStore.del (s : InmemStore) (id : String) : InmemStore :=
  { s with data := s.data.filter (fun k => k.id ≠ id) }

/-- `inmemStore.List()`: the inmem store cannot fail listing. -/
def InmemStore.list (s : InmemStore) : List Key := s.data

/-- `inmemStore.Lock()`: fails fast with `LockOccupied` when held,
otherwise records the fresh token and hands it out. -/
def InmemStore.lockOp (s : InmemStore) (fresh : String) :
    Except Error (String × InmemStore) :=
  match s.currentLockToken with
  | some _ => .error .lockOccupied
  | none => .ok (fresh, { s with currentLockToken := some fresh })

/-- `inmemStore.Unlock(lock)`: clears the lock when the token matches,
no-op (and no error) otherwise. -/
def InmemStore.unlockOp (s : InmemStore) (lock : String) : InmemStore :=
  match s.currentLockToken with
  | some held => if held = lock then { s with currentLockToken := none } else s
  | none => s

end Store

/-! ## The Keychain (`ring` struct) over the in-memory store -/

/-- The `ring` struct: the store, the normalized options and the cached
current signing key (`atomic.Value`; `none` before initialization, when
`SigningKey()` would panic). The single-flight coordinator is modelled
separately (see `FlightState`). -/
structure Ring where
  store : Store.InmemStore
  options : Options
  currentSigningKey : Option SigningKey
  deriving DecidableEq, Repr

/-- `getNonExpiredKeys(private)`: lists the store, keeps records of the
requested visibility whose `ExpiresAt` is strictly in the future, and
sorts ascending by expiry. The inmem `List` cannot fail, so the error
propagation branch of the Go code is dead here. -/
def getNonExpiredKeys (r : Ring) (isPrivate : Bool) (now : Int) :
    List Store.Key :=
  Store.sortByExpiresAt
    ((r.store.list).filter
      (fun k => k.isPrivate = isPrivate ∧ now < k.expiresAt))

/-- `getNonExpiredPrivateKeys` -/
def getNonExpiredPrivateKeys (r : Ring) (now : Int) : List Store.Key :=
  getNonExpiredKeys r true now

/-- `getNonExpiredPublicKeys` -/
def getNonExpiredPublicKeys (r : Ring) (now : Int) : List Store.Key :=
  getNonExpiredKeys r false now

/-- The body of `rotateSigningKey(reuseExisting)` (the function handed
to the single-flight coordinator): lock, optionally adopt the
soonest-expiring non-expired private record, else mint and persist a new
pair in one batch, publish to the cache, and unlock on every exit path
(the deferred `Unlock`). -/
def rotateSigningKey (r : Ring) (ext : Ext) (now : Int)
    (reuseExisting : Bool) : Except Error SigningKey × Ring :=
  match r.store.lockOp ext.freshLockToken with
  | .error e => (.error e, r)
  | .ok (lock, s1) =>
    let r1 : Ring := { r with store := s1 }
    match
      (if reuseExisting then
        match getNonExpiredPrivateKeys r1 now with
        | [] => none
        | existing :: _ => some existing
      else none : Option Store.Key) with
    | some existing =>
        (match storedPrivateKeyToSigningKey r1.options existing with
        | .error e => (.error e, { r1 with store := r1.store.unlockOp lock })
        | .ok newSigningKey =>
            (.ok newSigningKey,
              { r1 with
                  currentSigningKey := some newSigningKey
                  store := r1.store.unlockOp lock }))
    | none =>
        match createNewSigningKey ext r1.options now with
        | .error e => (.error e, { r1 with store := r1.store.unlockOp lock })
        | .ok newSigningKey =>
          match createStoreKeyPairFromSigningKey ext newSigningKey with
          | .error e => (.error e, { r1 with store := r1.store.unlockOp lock })
          | .ok (privateStoreKey, publicStoreKey) =>
            match s1.add lock [privateStoreKey, publicStoreKey] with
            | .error e =>
                (.error e, { r1 with store := r1.store.unlockOp lock })
            | .ok s2 =>
                (.ok newSigningKey,
                  { r1 with
                      currentSigningKey := some newSigningKey
                      store := s2.unlockOp lock })

/-- `SigningKey()`: `none` models the "not initialized" panic; otherwise
returns the cached key while `now ≤ rotatedAt` and triggers a
`reuseExisting` rotation past that point, wrapping a rotation failure in
`ErrKeyRotation`. -/
def signingKeyOp (r : Ring) (ext : Ext) (now : Int) :
    Option (Except Error SigningKey × Ring) :=
  match r.currentSigningKey with
  | none => none
  | some key =>
      if key.rotatedAt < now then
        match rotateSigningKey r ext now true with
        | (.error e, r') => some (.error (.keyRotation e), r')
        | (.ok newKey, r') => some (.ok newKey, r')
      else some (.ok key, r)

/-- `GetVerifier(id)`: finds the namespaced public record, treats a
logically expired record as `ErrKeyNotFound`, and decodes the rest. -/
def getVerifier (r : Ring) (now : Int) (id : String) :
    Except Error VerifierKey :=
  match r.store.find (pubKeyIDNamespace ++ id) with
  | .error e => .error e
  | .ok key =>
      if key.expiresAt < now then .error .keyNotFound
      else
        match parsePKIXPublicKey key.data with
        | .error e => .error e
        | .ok (.other _) => .error .keyNotFound
        | .ok (.rsa pub) =>
            .ok { id := id, key := pub, expiresAt := key.expiresAt }

/-- The decode loop of `ListVerifiers`: left to right, any parse failure
or non-RSA key aborts the whole call. -/
def decodeVerifiers : List Store.Key → Except Error (List VerifierKey)
  | [] => .ok []
  | key :: rest =>
      match parsePKIXPublicKey key.data with
      | .error e => .error e
      | .ok (.other _) => .error .unknownPublicKeyType
      | .ok (.rsa pub) =>
          match decodeVerifiers rest with
          | .error e => .error e
          | .ok vs =>
              .ok ({ id := stringTrimFront key.id pubKeyIDNamespace
                     key := pub
                     expiresAt := key.expiresAt } :: vs)

/-- `ListVerifiers()` -/
def listVerifiers (r : Ring) (now : Int) : Except Error (List VerifierKey) :=
  decodeVerifiers (getNonExpiredPublicKeys r now)

/-- `Rotate()`: forced rotation with `reuseExisting = false`; only the
error is surfaced. -/
def rotateForced (r : Ring) (ext : Ext) (now : Int) :
    Option Error × Ring :=
  match rotateSigningKey r ext now false with
  | (.error e, r') => (some e, r')
  | (.ok _, r') => (none, r')

/-! ## The single-flight rotation coordinator -/

/-- Modelled from the spec: the single-flight coordinator state
(`once.ValueError` of the external `github.com/hsson/once` module, whose
code is not part of this repository; the in-tree historical `onceErr`
follows the same done-flag + cached-result pattern). `none` means the
coordinator has not completed a run; `some res` means it completed with
`res`, which every caller on this coordinator shares without running its
own attempt. -/
def ValueError := Option (Except Error SigningKey)

/-- Modelled from the spec: `once.ValueError.Do(f)` in a sequential
interleaving — the first caller executes `f` and caches its result, any
later caller on the same coordinator is handed the cached result and
does not execute. The third component reports whether this caller
executed `f`. -/
def onceDo (st : ValueError) (f : Unit → Except Error SigningKey) :
    Except Error SigningKey × ValueError × Bool :=
  match st with
  | some res => (res, some res, false)
  | none => (f (), some (f ()), true)

/-- A sequence of `n` callers all requesting a rotation against the same
coordinator generation: each performs `onceDo`, threading the
coordinator state; the third component counts how many of them actually
executed the rotation body. -/
def runCallers (f : Unit → Except Error SigningKey) :
    Nat → ValueError → List (Except Error SigningKey) × ValueError × Nat
  | 0, st => ([], st, 0)
  | n + 1, st =>
      let step := onceDo st f
      let rest := runCallers f n step.2.1
      (step.1 :: rest.1, rest.2.1, (if step.2.2 then 1 else 0) + rest.2.2)

/-- The `ring` struct together with its `rotatehOnce` coordinator
field. -/
structure RingC where
  ring : Ring
  rotatehOnce : ValueError

/-- `rotateSigningKey` as routed through the coordinator: a caller who
finds a completed coordinator receives its result without executing the
rotation body; otherwise the body runs and — per the deferred
`rotatehOnce = &once.ValueError{}` replacement inside it — the field is
left holding a fresh coordinator, so a later expiry can start a new
attempt. -/
def rotateSigningKeyC (rc : RingC) (ext : Ext) (now : Int)
    (reuse : Bool) : Except Error SigningKey × RingC :=
  match rc.rotatehOnce with
  | some res => (res, rc)
  | none =>
      let out := rotateSigningKey rc.ring ext now reuse
      (out.1, { ring := out.2, rotatehOnce := none })

/-! ## Theorems -/

/-- C8: every signing key the engine creates satisfies
`rotatedAt ≤ verifiableUntil`: construction rejects any configuration
with `verificationPeriod < rotationFrequency` (defaulting
`verificationPeriod` to 2× `rotationFrequency` when unset), and key
creation sets `rotatedAt = now + rotationFrequency`,
`verifiableUntil = now + verificationPeriod`. -/
theorem rotatedAt_le_verifiableUntil (opts opts' : Options)
    (hv : newWithOptionsValidate opts = some opts') :
    opts'.rotationFrequency ≤ opts'.verificationPeriod ∧
    (opts.verificationPeriod = 0 ∧ opts.rotationFrequency ≠ 0 →
      opts'.verificationPeriod = opts.rotationFrequency * 2) ∧
    ∀ (ext : Ext) (now : Int) (sk : SigningKey),
      createNewSigningKey ext opts' now = .ok sk →
      sk.rotatedAt ≤ sk.verifiableUntil := by
  have hfreq : opts'.rotationFrequency ≤ opts'.verificationPeriod ∧
      (opts.verificationPeriod = 0 ∧ opts.rotationFrequency ≠ 0 →
        opts'.verificationPeriod = opts.rotationFrequency * 2) := by
    simp only [newWithOptionsValidate] at hv
    split_ifs at hv with h1 h2 h3 h4 h5 h6 h7 h8 h9 h10 h11 h12 h13 h14 <;>
      (injection hv with hv; subst hv) <;>
      simp_all
  refine ⟨hfreq.1, hfreq.2, ?_⟩
  intro ext now sk hcreate
  simp only [createNewSigningKey, bind, Except.bind] at hcreate
  cases hk : ext.genRSAKey with
  | error e => rw [hk] at hcreate; exact absurd hcreate (by simp)
  | ok k =>
    rw [hk] at hcreate
    cases hid : ext.genID with
    | error e => rw [hid] at hcreate; exact absurd hcreate (by simp)
    | ok i =>
      rw [hid] at hcreate
      injection hcreate with hcreate
      subst hcreate
      have h1 := hfreq.1
      show now + opts'.rotationFrequency ≤ now + opts'.verificationPeriod
      omega

/-- C8 witness: a configuration with an unset verification period is
defaulted and yields keys with `rotatedAt ≤ verifiableUntil`. -/
theorem rotatedAt_le_verifiableUntil_witness :
    newWithOptionsValidate
      { rotationFrequency := 10, verificationPeriod := 0, keySize := 0
        idAlphabet := "", idLength := 0 } =
      some
        { rotationFrequency := 10, verificationPeriod := 20, keySize := 2048
          idAlphabet :=
            "abcdefghijklmnopqrstuvwxyzABCDEFGHIJKLMNOPQRSTUVWXYZ"
          idLength := 8 } ∧
    ({ rotationFrequency := 10, verificationPeriod := 20, keySize := 2048
       idAlphabet := "abcdefghijklmnopqrstuvwxyzABCDEFGHIJKLMNOPQRSTUVWXYZ"
       idLength := 8 } : Options).rotationFrequency ≤
      ({ rotationFrequency := 10, verificationPeriod := 20, keySize := 2048
         idAlphabet := "abcdefghijklmnopqrstuvwxyzABCDEFGHIJKLMNOPQRSTUVWXYZ"
         idLength := 8 } : Options).verificationPeriod := by
  refine ⟨by decide, ?_⟩
  exact (rotatedAt_le_verifiableUntil
    { rotationFrequency := 10, verificationPeriod := 0, keySize := 0
      idAlphabet := "", idLength := 0 }
    { rotationFrequency := 10, verificationPeriod := 20, keySize := 2048
      idAlphabet := "abcdefghijklmnopqrstuvwxyzABCDEFGHIJKLMNOPQRSTUVWXYZ"
      idLength := 8 }
    (by decide)).1

instance : IsTotal Store.Key (fun a b => a.expiresAt ≤ b.expiresAt) :=
  ⟨fun a b => Int.le_total a.expiresAt b.expiresAt⟩

instance : IsTrans Store.Key (fun a b => a.expiresAt ≤ b.expiresAt) :=
  ⟨fun _ _ _ h1 h2 => le_trans h1 h2⟩

/-- Helper: a successful decode maps each record, in order, to a
verifier with the de-namespaced id and the record's expiry. -/
theorem decodeVerifiers_ok_map (ks : List Store.Key) (vs : List VerifierKey)
    (h : decodeVerifiers ks = .ok vs) :
    vs.map (fun v => (v.id, v.expiresAt)) =
      ks.map (fun k => (stringTrimFront k.id pubKeyIDNamespace,
        k.expiresAt)) := by
  induction ks generalizing vs with
  | nil =>
    simp only [decodeVerifiers, Except.ok.injEq] at h
    subst h
    simp
  | cons k rest ih =>
    simp only [decodeVerifiers] at h
    split at h
    · exact absurd h (by simp)
    · exact absurd h (by simp)
    · split at h
      · exact absurd h (by simp)
      · rename_i vs' hdec
        simp only [Except.ok.injEq] at h
        subst h
        simp [ih vs' hdec]

/-- Helper: every verifier of a successful decode comes from one of the
decoded records: its key is the record's parsed RSA key, its id the
de-namespaced record id, its expiry the record's expiry. -/
theorem decodeVerifiers_ok_mem (ks : List Store.Key)
    (vs : List VerifierKey) (h : decodeVerifiers ks = .ok vs) :
    ∀ vk ∈ vs, ∃ k ∈ ks,
      parsePKIXPublicKey k.data = .ok (.rsa vk.key) ∧
      vk.id = stringTrimFront k.id pubKeyIDNamespace ∧
      vk.expiresAt = k.expiresAt := by
  induction ks generalizing vs with
  | nil =>
    simp only [decodeVerifiers, Except.ok.injEq] at h
    subst h
    simp
  | cons k rest ih =>
    simp only [decodeVerifiers] at h
    split at h
    · exact absurd h (by simp)
    · exact absurd h (by simp)
    · rename_i pub hparse
      split at h
      · exact absurd h (by simp)
      · rename_i vs' hdec
        simp only [Except.ok.injEq] at h
        subst h
        intro vk hvk
        rcases List.mem_cons.mp hvk with heq | hmem
        · subst heq
          exact ⟨k, List.mem_cons_self _ _, hparse, rfl, rfl⟩
        · obtain ⟨k', hk', hrest⟩ := ih vs' hdec vk hmem
          exact ⟨k', List.mem_cons_of_mem _ hk', hrest⟩

/-- Helper: a record whose data does not decode to an RSA public key
makes the whole decode fail. -/
theorem decodeVerifiers_fails (ks : List Store.Key)
    (h : ∃ k ∈ ks, ∀ pub, parsePKIXPublicKey k.data ≠ .ok (.rsa pub)) :
    ∃ e, decodeVerifiers ks = .error e := by
  induction ks with
  | nil => simp at h
  | cons k rest ih =>
    rcases h with ⟨k', hk', hbad⟩
    rcases List.mem_cons.mp hk' with heq | hmem
    · subst heq
      simp only [decodeVerifiers]
      cases hp : parsePKIXPublicKey k'.data with
      | error e => exact ⟨e, rfl⟩
      | ok v =>
        cases v with
        | other n => exact ⟨.unknownPublicKeyType, rfl⟩
        | rsa pub => exact absurd hp (hbad pub)
    · simp only [decodeVerifiers]
      cases hp : parsePKIXPublicKey k.data with
      | error e => exact ⟨e, rfl⟩
      | ok v =>
        cases v with
        | other n => exact ⟨.unknownPublicKeyType, rfl⟩
        | rsa pub =>
          obtain ⟨e, he⟩ := ih ⟨k', hmem, hbad⟩
          rw [he]
          exact ⟨e, rfl⟩

/-- C6: a successful `ListVerifiers()` is sorted ascending by expiry and
holds exactly (as a multiset, and with de-namespaced ids) the public
records whose `expiresAt` is in the future; a record among those that
does not decode to an RSA public key fails the whole call. -/
theorem listVerifiers_sorted_exact (r : Ring) (now : Int) :
    (∀ vs, listVerifiers r now = .ok vs →
      List.Sorted (fun a b : VerifierKey => a.expiresAt ≤ b.expiresAt) vs ∧
      (vs.map (fun v => (v.id, v.expiresAt))).Perm
        ((r.store.data.filter
            (fun k => k.isPrivate = false ∧ now < k.expiresAt)).map
          (fun k => (stringTrimFront k.id pubKeyIDNamespace,
            k.expiresAt))) ∧
      ∀ vk ∈ vs, ∃ k ∈ r.store.data.filter
          (fun k => k.isPrivate = false ∧ now < k.expiresAt),
        parsePKIXPublicKey k.data = .ok (.rsa vk.key) ∧
        vk.id = stringTrimFront k.id pubKeyIDNamespace ∧
        vk.expiresAt = k.expiresAt) ∧
    ((∃ k ∈ r.store.data.filter
          (fun k => k.isPrivate = false ∧ now < k.expiresAt),
        ∀ pub, parsePKIXPublicKey k.data ≠ .ok (.rsa pub)) →
      ∃ e, listVerifiers r now = .error e) := by
  constructor
  · intro vs hok
    have hmap := decodeVerifiers_ok_map _ _ hok
    have hperm : (Store.sortByExpiresAt
        (r.store.data.filter
          (fun k => k.isPrivate = false ∧ now < k.expiresAt))).Perm
        (r.store.data.filter
          (fun k => k.isPrivate = false ∧ now < k.expiresAt)) :=
      List.perm_insertionSort _ _
    constructor
    · have hsorted : List.Sorted
          (fun a b : Store.Key => a.expiresAt ≤ b.expiresAt)
          (getNonExpiredPublicKeys r now) :=
        List.sorted_insertionSort _ _
      have hpw : List.Pairwise (fun a b : String × Int => a.2 ≤ b.2)
          (vs.map (fun v => (v.id, v.expiresAt))) := by
        rw [hmap, List.pairwise_map]
        exact hsorted
      rw [List.pairwise_map] at hpw
      exact hpw
    constructor
    · rw [hmap]
      exact hperm.map _
    · intro vk hvk
      obtain ⟨k, hk, hrest⟩ := decodeVerifiers_ok_mem _ _ hok vk hvk
      exact ⟨k, hperm.mem_iff.mp hk, hrest⟩
  · intro hbad
    obtain ⟨k, hk, hkbad⟩ := hbad
    refine decodeVerifiers_fails _ ⟨k, ?_, hkbad⟩
    have : (Store.sortByExpiresAt
        (r.store.data.filter
          (fun k => k.isPrivate = false ∧ now < k.expiresAt))).Perm
        (r.store.data.filter
          (fun k => k.isPrivate = false ∧ now < k.expiresAt)) :=
      List.perm_insertionSort _ _
    exact this.mem_iff.mpr hk

/-- C6 witness: two live public records come back sorted by expiry with
their ids de-namespaced; a corrupt record fails the whole call. -/
theorem listVerifiers_sorted_exact_witness :
    listVerifiers
      { store :=
          { data :=
              [{ id := "pub:k1", isPrivate := false, expiresAt := 200
                 data := .pkixPublic 7 },
               { id := "pub:k2", isPrivate := false, expiresAt := 150
                 data := .pkixPublic 9 }]
            currentLockToken := none }
        options := defaultOptions
        currentSigningKey := none } 100 =
      .ok [{ id := "k2", key := 9, expiresAt := 150 },
           { id := "k1", key := 7, expiresAt := 200 }] ∧
    List.Sorted (fun a b : VerifierKey => a.expiresAt ≤ b.expiresAt)
      [({ id := "k2", key := 9, expiresAt := 150 } : VerifierKey),
       { id := "k1", key := 7, expiresAt := 200 }] := by
  constructor
  · rfl
  · exact ((listVerifiers_sorted_exact
      { store :=
          { data :=
              [{ id := "pub:k1", isPrivate := false, expiresAt := 200
                 data := .pkixPublic 7 },
               { id := "pub:k2", isPrivate := false, expiresAt := 150
                 data := .pkixPublic 9 }]
            currentLockToken := none }
        options := defaultOptions
        currentSigningKey := none } 100).1 _ rfl).1

/-- Helper: unlocking never touches the stored records. -/
theorem unlockOp_data (s : Store.InmemStore) (lock : String) :
    (s.unlockOp lock).data = s.data := by
  unfold Store.InmemStore.unlockOp
  cases s.currentLockToken with
  | none => rfl
  | some held => by_cases h : held = lock <;> simp [h]

/-- Helper: a successful `Add` writes exactly the batch (by map insert,
left to right) and leaves the lock as it was. -/
theorem add_ok_data (s : Store.InmemStore) (lock : String)
    (keys : List Store.Key) (s2 : Store.InmemStore)
    (h : s.add lock keys = .ok s2) :
    s2.data = keys.foldl Store.mapInsert s.data ∧
    s2.currentLockToken = s.currentLockToken := by
  unfold Store.InmemStore.add at h
  split at h
  · split at h
    · exact absurd h (by simp)
    · split at h
      · exact absurd h (by simp)
      · injection h with h
        subst h
        exact ⟨rfl, rfl⟩
  · split at h
    · exact absurd h (by simp)
    · injection h with h
      subst h
      exact ⟨rfl, rfl⟩

/-- C3: a rotation attempt commits all or nothing. On any failure the
cached current key and the stored records are exactly as before the
attempt; on success the new key is published to the cache and the store
either kept its records (the adopt-existing path persists nothing) or
gained precisely the serialized private/public pair of the returned key
written by the single `Add` batch. -/
theorem rotate_commit_or_nothing (r : Ring) (ext : Ext) (now : Int)
    (reuseExisting : Bool) (res : Except Error SigningKey) (r' : Ring)
    (h : rotateSigningKey r ext now reuseExisting = (res, r')) :
    (∀ e, res = .error e →
      r'.currentSigningKey = r.currentSigningKey ∧
      r'.store.data = r.store.data) ∧
    (∀ sk, res = .ok sk →
      r'.currentSigningKey = some sk ∧
      (r'.store.data = r.store.data ∨
        ∃ privK pubK,
          createStoreKeyPairFromSigningKey ext sk = .ok (privK, pubK) ∧
          r'.store.data =
            Store.mapInsert (Store.mapInsert r.store.data privK) pubK)) := by
  simp only [rotateSigningKey] at h
  split at h
  · -- lock acquisition failed
    rename_i e hlock
    injection h with h1 h2
    subst h1 h2
    constructor
    · intro e' _
      exact ⟨rfl, rfl⟩
    · intro sk hsk
      exact absurd hsk (by simp)
  · rename_i lock s1 hlock
    have hs1 : s1 = { r.store with currentLockToken := some ext.freshLockToken } ∧
        lock = ext.freshLockToken := by
      unfold Store.InmemStore.lockOp at hlock
      split at hlock
      · exact absurd hlock (by simp)
      · injection hlock with hlock
        injection hlock with hl1 hl2
        exact ⟨hl2.symm, hl1.symm⟩
    obtain ⟨hs1d, hlk⟩ := hs1
    split at h
    · -- adopt-existing branch
      split at h
      · -- stored key failed to parse
        injection h with h1 h2
        subst h1 h2
        constructor
        · intro e' _
          refine ⟨rfl, ?_⟩
          rw [unlockOp_data, hs1d]
        · intro sk hsk
          exact absurd hsk (by simp)
      · rename_i newKey hparse
        injection h with h1 h2
        subst h1 h2
        constructor
        · intro e' he'
          exact absurd he' (by simp)
        · intro sk hsk
          injection hsk with hsk
          subst hsk
          refine ⟨rfl, Or.inl ?_⟩
          rw [unlockOp_data, hs1d]
    · -- mint branch
      split at h
      · -- createNewSigningKey failed
        injection h with h1 h2
        subst h1 h2
        constructor
        · intro e' _
          refine ⟨rfl, ?_⟩
          rw [unlockOp_data, hs1d]
        · intro sk hsk
          exact absurd hsk (by simp)
      · rename_i newKey hnew
        split at h
        · -- serialization failed
          injection h with h1 h2
          subst h1 h2
          constructor
          · intro e' _
            refine ⟨rfl, ?_⟩
            rw [unlockOp_data, hs1d]
          · intro sk hsk
            exact absurd hsk (by simp)
        · rename_i privK pubK hpair
          split at h
          · -- batch Add failed
            injection h with h1 h2
            subst h1 h2
            constructor
            · intro e' _
              refine ⟨rfl, ?_⟩
              rw [unlockOp_data, hs1d]
            · intro sk hsk
              exact absurd hsk (by simp)
          · -- full commit
            rename_i s2 hadd
            injection h with h1 h2
            subst h1 h2
            constructor
            · intro e' he'
              exact absurd he' (by simp)
            · intro sk hsk
              injection hsk with hsk
              subst hsk
              refine ⟨rfl, Or.inr ⟨privK, pubK, hpair, ?_⟩⟩
              have hd := (add_ok_data _ _ _ _ hadd).1
              rw [unlockOp_data, hd, hs1d]
              rfl

/-- C3 witness: a rotation that fails on an occupied lock leaves the
cache and the stored records untouched. -/
theorem rotate_commit_or_nothing_witness :
    (rotateSigningKey
      { store := { data := [], currentLockToken := some "held" }
        options := defaultOptions
        currentSigningKey :=
          some { id := "k0", key := 3, rotatedAt := 5, verifiableUntil := 20 } }
      { genRSAKey := .ok 42, genID := .ok "newid000"
        marshalPriv := stdMarshalPriv, marshalPub := stdMarshalPub
        freshLockToken := "tok" }
      10 true).1 = .error .lockOccupied ∧
    (rotateSigningKey
      { store := { data := [], currentLockToken := some "held" }
        options := defaultOptions
        currentSigningKey :=
          some { id := "k0", key := 3, rotatedAt := 5, verifiableUntil := 20 } }
      { genRSAKey := .ok 42, genID := .ok "newid000"
        marshalPriv := stdMarshalPriv, marshalPub := stdMarshalPub
        freshLockToken := "tok" }
      10 true).2.currentSigningKey =
      some { id := "k0", key := 3, rotatedAt := 5, verifiableUntil := 20 } := by
  constructor
  · rfl
  · have h := (rotate_commit_or_nothing
      { store := { data := [], currentLockToken := some "held" }
        options := defaultOptions
        currentSigningKey :=
          some { id := "k0", key := 3, rotatedAt := 5, verifiableUntil := 20 } }
      { genRSAKey := .ok 42, genID := .ok "newid000"
        marshalPriv := stdMarshalPriv, marshalPub := stdMarshalPub
        freshLockToken := "tok" }
      10 true
      (rotateSigningKey
        { store := { data := [], currentLockToken := some "held" }
          options := defaultOptions
          currentSigningKey :=
            some { id := "k0", key := 3, rotatedAt := 5
                   verifiableUntil := 20 } }
        { genRSAKey := .ok 42, genID := .ok "newid000"
          marshalPriv := stdMarshalPriv, marshalPub := stdMarshalPub
          freshLockToken := "tok" }
        10 true).1
      (rotateSigningKey
        { store := { data := [], currentLockToken := some "held" }
          options := defaultOptions
          currentSigningKey :=
            some { id := "k0", key := 3, rotatedAt := 5
                   verifiableUntil := 20 } }
        { genRSAKey := .ok 42, genID := .ok "newid000"
          marshalPriv := stdMarshalPriv, marshalPub := stdMarshalPub
          freshLockToken := "tok" }
        10 true).2
      rfl).1 .lockOccupied rfl
    exact h.1.trans rfl

/-- C1: a rotation with `reuseExisting = true` that finds at least one
non-expired private record adopts the soonest-expiring one: it becomes
the cached current key and is returned, the stored records are left
untouched (nothing is minted or persisted), and its expiry is minimal
among all non-expired private records. Only when no such record exists
does the rotation behave exactly like a `reuseExisting = false` one,
which mints and persists a fresh pair in one batch under the lock. -/
theorem rotate_reuse_adopts_soonest (r : Ring) (ext : Ext) (now : Int)
    (hlock : r.store.currentLockToken = none) :
    (∀ k0 rest sk,
      getNonExpiredPrivateKeys r now = k0 :: rest →
      storedPrivateKeyToSigningKey r.options k0 = .ok sk →
      rotateSigningKey r ext now true =
        (.ok sk, { r with currentSigningKey := some sk }) ∧
      ∀ k ∈ r.store.data, k.isPrivate = true → now < k.expiresAt →
        k0.expiresAt ≤ k.expiresAt) ∧
    (getNonExpiredPrivateKeys r now = [] →
      rotateSigningKey r ext now true = rotateSigningKey r ext now false) := by
  obtain ⟨⟨data, tok⟩, opts, cache⟩ := r
  simp only at hlock
  subst hlock
  constructor
  · intro k0 rest sk hkeys hparse
    constructor
    · simp only [rotateSigningKey, Store.InmemStore.lockOp]
      have hkeys' : getNonExpiredPrivateKeys
          { store := { data := data, currentLockToken := some ext.freshLockToken }
            options := opts, currentSigningKey := cache } now =
          k0 :: rest := hkeys
      rw [hkeys']
      simp only at hparse
      simp [hparse, Store.InmemStore.unlockOp]
    · intro k hk hkpriv hkexp
      have hmem : k ∈ getNonExpiredPrivateKeys
          { store := { data := data, currentLockToken := none }
            options := opts, currentSigningKey := cache } now := by
        simp only [getNonExpiredPrivateKeys, getNonExpiredKeys,
          Store.InmemStore.list]
        have : k ∈ data.filter
            (fun k => k.isPrivate = true ∧ now < k.expiresAt) :=
          List.mem_filter.mpr ⟨hk, by simp [hkpriv, hkexp]⟩
        exact (List.perm_insertionSort _ _).mem_iff.mpr this
      rw [hkeys] at hmem
      have hsorted : List.Sorted
          (fun a b : Store.Key => a.expiresAt ≤ b.expiresAt) (k0 :: rest) := by
        rw [← hkeys]
        exact List.sorted_insertionSort _ _
      rcases List.mem_cons.mp hmem with heq | hmem'
      · rw [heq]
      · exact List.rel_of_sorted_cons hsorted k hmem'
  · intro hempty
    simp only [rotateSigningKey, Store.InmemStore.lockOp]
    have hempty' : getNonExpiredPrivateKeys
        { store := { data := data, currentLockToken := some ext.freshLockToken }
          options := opts, currentSigningKey := cache } now = [] := hempty
    rw [hempty']
    simp

/-- C1 witness: with two live private records the rotation adopts the
one expiring soonest and persists nothing. -/
theorem rotate_reuse_adopts_soonest_witness :
    rotateSigningKey
      { store :=
          { data :=
              [{ id := "k1", isPrivate := true, expiresAt := 100
                 data := .pkcs8Private 7 },
               { id := "k2", isPrivate := true, expiresAt := 50
                 data := .pkcs8Private 9 }]
            currentLockToken := none }
        options :=
          { rotationFrequency := 10, verificationPeriod := 25
            keySize := 2048, idAlphabet := "ab", idLength := 8 }
        currentSigningKey :=
          some { id := "k0", key := 3, rotatedAt := 5, verifiableUntil := 20 } }
      { genRSAKey := .ok 42, genID := .ok "newid000"
        marshalPriv := stdMarshalPriv, marshalPub := stdMarshalPub
        freshLockToken := "tok" }
      10 true =
      (.ok { id := "k2", key := 9, rotatedAt := 50, verifiableUntil := 65 },
       { store :=
           { data :=
               [{ id := "k1", isPrivate := true, expiresAt := 100
                  data := .pkcs8Private 7 },
                { id := "k2", isPrivate := true, expiresAt := 50
                  data := .pkcs8Private 9 }]
             currentLockToken := none }
         options :=
           { rotationFrequency := 10, verificationPeriod := 25
             keySize := 2048, idAlphabet := "ab", idLength := 8 }
         currentSigningKey :=
           some { id := "k2", key := 9, rotatedAt := 50
                  verifiableUntil := 65 } }) :=
  ((rotate_reuse_adopts_soonest
    { store :=
        { data :=
            [{ id := "k1", isPrivate := true, expiresAt := 100
               data := .pkcs8Private 7 },
             { id := "k2", isPrivate := true, expiresAt := 50
               data := .pkcs8Private 9 }]
          currentLockToken := none }
      options :=
        { rotationFrequency := 10, verificationPeriod := 25
          keySize := 2048, idAlphabet := "ab", idLength := 8 }
      currentSigningKey :=
        some { id := "k0", key := 3, rotatedAt := 5, verifiableUntil := 20 } }
    { genRSAKey := .ok 42, genID := .ok "newid000"
      marshalPriv := stdMarshalPriv, marshalPub := stdMarshalPub
      freshLockToken := "tok" }
    10 rfl).1
    { id := "k2", isPrivate := true, expiresAt := 50
      data := .pkcs8Private 9 }
    [{ id := "k1", isPrivate := true, expiresAt := 100
       data := .pkcs8Private 7 }]
    { id := "k2", key := 9, rotatedAt := 50, verifiableUntil := 65 }
    rfl rfl).1

/-- C2: `SigningKey()` serves the cached key unchanged (and performs no
rotation) while `now` is not after its `rotatedAt`; once `now` passes
`rotatedAt` it triggers a `reuseExisting = true` rotation and returns
its outcome, wrapping a rotation failure in the `KeyRotation` error
kind. -/
theorem signingKey_cached_or_rotates (r : Ring) (ext : Ext) (now : Int)
    (key : SigningKey) (hcache : r.currentSigningKey = some key) :
    (now ≤ key.rotatedAt → signingKeyOp r ext now = some (.ok key, r)) ∧
    (key.rotatedAt < now →
      (∀ e r', rotateSigningKey r ext now true = (.error e, r') →
        signingKeyOp r ext now = some (.error (.keyRotation e), r')) ∧
      (∀ sk r', rotateSigningKey r ext now true = (.ok sk, r') →
        signingKeyOp r ext now = some (.ok sk, r'))) := by
  refine ⟨?_, fun hgt => ⟨?_, ?_⟩⟩
  · intro hle
    simp [signingKeyOp, hcache, not_lt.mpr hle]
  · intro e r' hrot
    simp [signingKeyOp, hcache, hgt, hrot]
  · intro sk r' hrot
    simp [signingKeyOp, hcache, hgt, hrot]

/-- C2 witness: before `rotatedAt` the cached key is returned as is;
past `rotatedAt` with the store lock occupied, the rotation failure
comes back wrapped in the `KeyRotation` kind. -/
theorem signingKey_cached_or_rotates_witness :
    signingKeyOp
      { store := { data := [], currentLockToken := none }
        options := defaultOptions
        currentSigningKey :=
          some { id := "k0", key := 3, rotatedAt := 5, verifiableUntil := 20 } }
      { genRSAKey := .ok 42, genID := .ok "newid000"
        marshalPriv := stdMarshalPriv, marshalPub := stdMarshalPub
        freshLockToken := "tok" }
      4 =
      some (.ok { id := "k0", key := 3, rotatedAt := 5, verifiableUntil := 20 },
        { store := { data := [], currentLockToken := none }
          options := defaultOptions
          currentSigningKey :=
            some { id := "k0", key := 3, rotatedAt := 5
                   verifiableUntil := 20 } }) ∧
    signingKeyOp
      { store := { data := [], currentLockToken := some "held" }
        options := defaultOptions
        currentSigningKey :=
          some { id := "k0", key := 3, rotatedAt := 5, verifiableUntil := 20 } }
      { genRSAKey := .ok 42, genID := .ok "newid000"
        marshalPriv := stdMarshalPriv, marshalPub := stdMarshalPub
        freshLockToken := "tok" }
      10 =
      some (.error (.keyRotation .lockOccupied),
        { store := { data := [], currentLockToken := some "held" }
          options := defaultOptions
          currentSigningKey :=
            some { id := "k0", key := 3, rotatedAt := 5
                   verifiableUntil := 20 } }) := by
  constructor
  · exact (signingKey_cached_or_rotates
      { store := { data := [], currentLockToken := none }
        options := defaultOptions
        currentSigningKey :=
          some { id := "k0", key := 3, rotatedAt := 5, verifiableUntil := 20 } }
      { genRSAKey := .ok 42, genID := .ok "newid000"
        marshalPriv := stdMarshalPriv, marshalPub := stdMarshalPub
        freshLockToken := "tok" }
      4 { id := "k0", key := 3, rotatedAt := 5, verifiableUntil := 20 }
      rfl).1 (by decide)
  · exact ((signingKey_cached_or_rotates
      { store := { data := [], currentLockToken := some "held" }
        options := defaultOptions
        currentSigningKey :=
          some { id := "k0", key := 3, rotatedAt := 5, verifiableUntil := 20 } }
      { genRSAKey := .ok 42, genID := .ok "newid000"
        marshalPriv := stdMarshalPriv, marshalPub := stdMarshalPub
        freshLockToken := "tok" }
      10 { id := "k0", key := 3, rotatedAt := 5, verifiableUntil := 20 }
      rfl).2 (by decide)).1 .lockOccupied _ rfl

/-- Helper: a successful `Add` implies no id in the batch collided with
a stored record. -/
theorem add_ok_no_conflict (s : Store.InmemStore) (lock : String)
    (keys : List Store.Key) (s2 : Store.InmemStore)
    (h : s.add lock keys = .ok s2) :
    ∀ key ∈ keys, ∀ kd ∈ s.data, kd.id ≠ key.id := by
  intro key hkey kd hkd
  unfold Store.InmemStore.add at h
  split at h
  · split at h
    · exact absurd h (by simp)
    · split at h
      · exact absurd h (by simp)
      · rename_i hnoconf
        intro heq
        exact hnoconf (List.any_eq_true.mpr
          ⟨key, hkey, List.any_eq_true.mpr ⟨kd, hkd, by simp [heq]⟩⟩)
  · split at h
    · exact absurd h (by simp)
    · rename_i hnoconf
      intro heq
      exact hnoconf (List.any_eq_true.mpr
        ⟨key, hkey, List.any_eq_true.mpr ⟨kd, hkd, by simp [heq]⟩⟩)

/-- Helper: the serialized pair carries the signing key's id (private
half) and the namespaced id (public half), with the documented
expiries. -/
theorem createStoreKeyPair_ids (ext : Ext) (sk : SigningKey)
    (privK pubK : Store.Key)
    (h : createStoreKeyPairFromSigningKey ext sk = .ok (privK, pubK)) :
    privK.id = sk.id ∧ privK.isPrivate = true ∧
    privK.expiresAt = sk.rotatedAt ∧
    pubK.id = pubKeyIDNamespace ++ sk.id ∧ pubK.isPrivate = false ∧
    pubK.expiresAt = sk.verifiableUntil := by
  simp only [createStoreKeyPairFromSigningKey, bind, Except.bind] at h
  cases hm : ext.marshalPriv sk.key with
  | error e => rw [hm] at h; exact absurd h (by simp)
  | ok pd =>
    rw [hm] at h
    cases hp : ext.marshalPub sk.key with
    | error e => rw [hp] at h; exact absurd h (by simp)
    | ok qd =>
      rw [hp] at h
      injection h with h
      injection h with h1 h2
      subst h1 h2
      exact ⟨rfl, rfl, rfl, rfl, rfl, rfl⟩

/-- C7: a successful forced rotation (`Rotate()`, `reuseExisting =
false`) publishes a key whose id differs from the prior current key's
id, provided the prior key's private record is still stored: the
conflict check of the atomic `Add` would have failed the rotation on an
id collision. -/
theorem forced_rotation_changes_id (r : Ring) (ext : Ext) (now : Int)
    (prior : SigningKey) (_hc : r.currentSigningKey = some prior)
    (k : Store.Key) (hk : k ∈ r.store.data) (hkid : k.id = prior.id)
    (sk : SigningKey) (r' : Ring)
    (h : rotateSigningKey r ext now false = (.ok sk, r')) :
    sk.id ≠ prior.id ∧ r'.currentSigningKey = some sk := by
  simp only [rotateSigningKey] at h
  split at h
  · exact absurd (congrArg Prod.fst h) (by simp)
  · rename_i lock s1 hlock
    have hs1 : s1.data = r.store.data ∧ lock = ext.freshLockToken := by
      unfold Store.InmemStore.lockOp at hlock
      split at hlock
      · exact absurd hlock (by simp)
      · injection hlock with hlock
        injection hlock with hl1 hl2
        exact ⟨by rw [← hl2], hl1.symm⟩
    split at h
    · rename_i hsome
      exact absurd hsome (by simp)
    · split at h
      · exact absurd (congrArg Prod.fst h) (by simp)
      · rename_i newKey hnew
        split at h
        · exact absurd (congrArg Prod.fst h) (by simp)
        · rename_i privK pubK hpair
          split at h
          · exact absurd (congrArg Prod.fst h) (by simp)
          · rename_i s2 hadd
            have hfst := congrArg Prod.fst h
            have hsnd := congrArg Prod.snd h
            simp only at hfst hsnd
            injection hfst with hfst
            subst hfst
            have hnc := add_ok_no_conflict _ _ _ _ hadd privK
              (by simp) k (by rw [hs1.1]; exact hk)
            have hpid := (createStoreKeyPair_ids _ _ _ _ hpair).1
            refine ⟨?_, by rw [← hsnd]⟩
            intro hcontra
            exact hnc (by rw [hkid, ← hcontra, hpid])

/-- C7 witness: with the prior key's private record still stored, a
concrete successful forced rotation yields a key with a different id. -/
theorem forced_rotation_changes_id_witness :
    (rotateSigningKey
      { store :=
          { data := [{ id := "k0", isPrivate := true, expiresAt := 100
                       data := .pkcs8Private 3 }]
            currentLockToken := none }
        options :=
          { rotationFrequency := 10, verificationPeriod := 25
            keySize := 2048, idAlphabet := "ab", idLength := 8 }
        currentSigningKey :=
          some { id := "k0", key := 3, rotatedAt := 5, verifiableUntil := 20 } }
      { genRSAKey := .ok 42, genID := .ok "newid000"
        marshalPriv := stdMarshalPriv, marshalPub := stdMarshalPub
        freshLockToken := "tok" }
      10 false).1 =
      .ok { id := "newid000", key := 42, rotatedAt := 20
            verifiableUntil := 35 } ∧
    ({ id := "newid000", key := 42, rotatedAt := 20
       verifiableUntil := 35 } : SigningKey).id ≠ "k0" := by
  refine ⟨rfl, ?_⟩
  have h := forced_rotation_changes_id
    { store :=
        { data := [{ id := "k0", isPrivate := true, expiresAt := 100
                     data := .pkcs8Private 3 }]
          currentLockToken := none }
      options :=
        { rotationFrequency := 10, verificationPeriod := 25
          keySize := 2048, idAlphabet := "ab", idLength := 8 }
      currentSigningKey :=
        some { id := "k0", key := 3, rotatedAt := 5, verifiableUntil := 20 } }
    { genRSAKey := .ok 42, genID := .ok "newid000"
      marshalPriv := stdMarshalPriv, marshalPub := stdMarshalPub
      freshLockToken := "tok" }
    10
    { id := "k0", key := 3, rotatedAt := 5, verifiableUntil := 20 } rfl
    { id := "k0", isPrivate := true, expiresAt := 100
      data := .pkcs8Private 3 }
    (by simp) rfl
    { id := "newid000", key := 42, rotatedAt := 20, verifiableUntil := 35 }
    (rotateSigningKey
      { store :=
          { data := [{ id := "k0", isPrivate := true, expiresAt := 100
                       data := .pkcs8Private 3 }]
            currentLockToken := none }
        options :=
          { rotationFrequency := 10, verificationPeriod := 25
            keySize := 2048, idAlphabet := "ab", idLength := 8 }
        currentSigningKey :=
          some { id := "k0", key := 3, rotatedAt := 5, verifiableUntil := 20 } }
      { genRSAKey := .ok 42, genID := .ok "newid000"
        marshalPriv := stdMarshalPriv, marshalPub := stdMarshalPub
        freshLockToken := "tok" }
      10 false).2
    rfl
  exact h.1

/-- C10: a signing key the engine creates, serialized to its private
store record and reconstructed, is recovered exactly: the id and
`rotatedAt` (= the record's `expiresAt`) are stored, and
`verifiableUntil` is recomputed as
`expiresAt + verificationPeriod - rotationFrequency
 = (now + rotationFrequency) + verificationPeriod - rotationFrequency
 = now + verificationPeriod`. -/
theorem signingKey_roundtrip (opts : Options) (ext : Ext) (now : Int)
    (sk : SigningKey)
    (hmarshal : ext.marshalPriv = stdMarshalPriv)
    (hcreate : createNewSigningKey ext opts now = .ok sk)
    (privK pubK : Store.Key)
    (hpair : createStoreKeyPairFromSigningKey ext sk = .ok (privK, pubK)) :
    storedPrivateKeyToSigningKey opts privK = .ok sk := by
  simp only [createNewSigningKey, bind, Except.bind] at hcreate
  cases hk : ext.genRSAKey with
  | error e => rw [hk] at hcreate; exact absurd hcreate (by simp)
  | ok k =>
    rw [hk] at hcreate
    cases hid : ext.genID with
    | error e => rw [hid] at hcreate; exact absurd hcreate (by simp)
    | ok i =>
      rw [hid] at hcreate
      injection hcreate with hcreate
      subst hcreate
      simp only [createStoreKeyPairFromSigningKey, hmarshal, stdMarshalPriv,
        bind, Except.bind] at hpair
      cases hpub : ext.marshalPub k with
      | error e => rw [hpub] at hpair; exact absurd hpair (by simp)
      | ok pd =>
        rw [hpub] at hpair
        injection hpair with hpair
        have hpriv : privK =
            { id := i, isPrivate := true,
              expiresAt := now + opts.rotationFrequency,
              data := .pkcs8Private k } := by
          have := congrArg Prod.fst hpair
          simpa using this.symm
        subst hpriv
        simp only [storedPrivateKeyToSigningKey, parsePKCS8PrivateKey,
          Except.ok.injEq, SigningKey.mk.injEq, true_and]
        omega

/-- C5 counterexample: when no lock is held at all, `inmemStore.Add`
does not fail with `InvalidLock` — the guard
`currentLockToken != nil && *currentLockToken != lock` lets any token
through and the batch is written. This falsifies the claim that an add
fails with `InvalidLock` "when no lock is held at all". -/
theorem add_without_lock_succeeds :
    Store.InmemStore.add { data := [], currentLockToken := none } "sometoken"
      [{ id := "k1", isPrivate := true, expiresAt := 10
         data := .pkcs8Private 1 }] =
    .ok { data := [{ id := "k1", isPrivate := true, expiresAt := 10
                     data := .pkcs8Private 1 }]
          currentLockToken := none } := by
  rfl

/-- C5 (amended): `Add` fails with `InvalidLock` when a lock is held and
the supplied token differs; when the lock check passes (no lock held, or
the token matches), a batch containing any id already in the store fails
with `KeyIDConflict` before anything is written (the error return leaves
the store unchanged, so the batch is all-or-nothing), and a
conflict-free batch is written in full. -/
theorem add_lock_and_conflict (s : Store.InmemStore) (lock : String)
    (keys : List Store.Key) :
    (∀ held, s.currentLockToken = some held → held ≠ lock →
      s.add lock keys = .error .invalidLock) ∧
    ((s.currentLockToken = none ∨ s.currentLockToken = some lock) →
      ((∃ key ∈ keys, ∃ k ∈ s.data, k.id = key.id) →
        s.add lock keys = .error .keyIDConflict) ∧
      ((¬ ∃ key ∈ keys, ∃ k ∈ s.data, k.id = key.id) →
        s.add lock keys =
          .ok { s with data := keys.foldl Store.mapInsert s.data })) := by
  constructor
  · intro held hheld hne
    simp [Store.InmemStore.add, hheld, hne]
  · intro hlock
    constructor
    · intro hconf
      rcases hlock with h | h <;>
        simp_all [Store.InmemStore.add, List.any_eq_true]
    · intro hnoconf
      rcases hlock with h | h <;>
        simp_all [Store.InmemStore.add, List.any_eq_true]

/-- C5 witness: a held-lock mismatch is rejected, a conflicting batch is
rejected whole, and a clean batch under a matching token is written. -/
theorem add_lock_and_conflict_witness :
    Store.InmemStore.add
      { data := [], currentLockToken := some "a" } "b"
      [{ id := "k1", isPrivate := true, expiresAt := 10
         data := .pkcs8Private 1 }] = .error .invalidLock ∧
    Store.InmemStore.add
      { data := [{ id := "k1", isPrivate := true, expiresAt := 10
                   data := .pkcs8Private 1 }]
        currentLockToken := some "a" } "a"
      [{ id := "k2", isPrivate := false, expiresAt := 5
         data := .pkixPublic 2 }
       , { id := "k1", isPrivate := true, expiresAt := 10
           data := .pkcs8Private 1 }] = .error .keyIDConflict := by
  constructor
  · exact (add_lock_and_conflict
      { data := [], currentLockToken := some "a" } "b" _).1 "a" rfl
      (by decide)
  · exact ((add_lock_and_conflict _ "a" _).2 (Or.inr rfl)).1
      (by decide)

/-- Helper: a successful `inmemStore.Find` returns a stored record with
the requested id. -/
theorem find_ok_mem (s : Store.InmemStore) (id : String) (key : Store.Key)
    (h : s.find id = .ok key) : key ∈ s.data ∧ key.id = id := by
  simp only [Store.InmemStore.find] at h
  cases hf : s.data.find? (fun k => k.id = id) with
  | none => rw [hf] at h; exact absurd h (by simp)
  | some k' =>
    rw [hf] at h
    injection h with h
    subst h
    exact ⟨List.mem_of_find?_eq_some hf, by simpa using List.find?_some hf⟩

/-- C4: `GetVerifier(id)` looks the record up under the
public-namespace-qualified id and fails with `KeyNotFound` both when no
such record is stored and when the record is present but logically
expired (`now` past its `expiresAt`); a returned verifier carries the
requested id and the record's expiry. -/
theorem getVerifier_expiry_and_id (r : Ring) (now : Int) (id : String) :
    ((∀ k ∈ r.store.data, k.id ≠ pubKeyIDNamespace ++ id) →
      getVerifier r now id = .error .keyNotFound) ∧
    (∀ key, r.store.find (pubKeyIDNamespace ++ id) = .ok key →
      key.expiresAt < now → getVerifier r now id = .error .keyNotFound) ∧
    (∀ vk, getVerifier r now id = .ok vk →
      vk.id = id ∧
      ∃ key ∈ r.store.data, key.id = pubKeyIDNamespace ++ id ∧
        vk.expiresAt = key.expiresAt ∧ now ≤ key.expiresAt) := by
  refine ⟨?_, ?_, ?_⟩
  · intro habsent
    have hnone : r.store.data.find?
        (fun k => k.id = pubKeyIDNamespace ++ id) = none := by
      rw [List.find?_eq_none]
      intro k hk
      simpa using habsent k hk
    simp [getVerifier, Store.InmemStore.find, hnone]
  · intro key hfind hexp
    simp [getVerifier, hfind, if_pos hexp]
  · intro vk hok
    simp only [getVerifier] at hok
    split at hok
    · exact absurd hok (by simp)
    · rename_i key hfind
      split at hok
      · exact absurd hok (by simp)
      · rename_i hexp
        split at hok
        · exact absurd hok (by simp)
        · exact absurd hok (by simp)
        · simp only [Except.ok.injEq] at hok
          subst hok
          have hmem := find_ok_mem _ _ _ hfind
          exact ⟨rfl, key, hmem.1, hmem.2, rfl, by omega⟩

/-- C4 witness: a present-but-expired record yields `KeyNotFound`; a
live record yields a verifier with the requested id and the record's
expiry. -/
theorem getVerifier_expiry_and_id_witness :
    getVerifier
      { store :=
          { data := [{ id := "pub:k1", isPrivate := false, expiresAt := 200
                       data := .pkixPublic 7 }]
            currentLockToken := none }
        options :=
          { rotationFrequency := 10, verificationPeriod := 25
            keySize := 2048, idAlphabet := "ab", idLength := 8 }
        currentSigningKey := none } 300 "k1" = .error .keyNotFound := by
  exact (getVerifier_expiry_and_id _ 300 "k1").2.1
    { id := "pub:k1", isPrivate := false, expiresAt := 200
      data := .pkixPublic 7 } rfl (by decide)

/-- Helper: a completed coordinator hands every further caller its
cached result with no further execution. -/
theorem runCallers_done (f : Unit → Except Error SigningKey)
    (res : Except Error SigningKey) (n : Nat) :
    runCallers f n (some res) = (List.replicate n res, some res, 0) := by
  induction n with
  | zero => rfl
  | succ n ih => simp [runCallers, onceDo, ih, List.replicate_succ]

/-- C9: rotation is coalesced. Of `n ≥ 1` callers that request a
rotation on the same coordinator generation, exactly one executes the
rotation body and all of them receive that one attempt's result; and a
rotation attempt routed through a fresh coordinator leaves the
coordinator field fresh again after completing, so a later expiry can
start a new attempt. -/
theorem rotation_coalesced (f : Unit → Except Error SigningKey) (n : Nat)
    (hn : 1 ≤ n) :
    (runCallers f n none).1 = List.replicate n (f ()) ∧
    (runCallers f n none).2.2 = 1 ∧
    ∀ (rc : RingC) (ext : Ext) (now : Int) (reuse : Bool),
      rc.rotatehOnce = none →
      (rotateSigningKeyC rc ext now reuse).2.rotatehOnce = none ∧
      (rotateSigningKeyC rc ext now reuse).1 =
        (rotateSigningKey rc.ring ext now reuse).1 := by
  obtain ⟨m, rfl⟩ : ∃ m, n = m + 1 := ⟨n - 1, by omega⟩
  refine ⟨?_, ?_, ?_⟩
  · simp [runCallers, onceDo, runCallers_done, List.replicate_succ]
  · simp [runCallers, onceDo, runCallers_done]
  · intro rc ext now reuse hfresh
    simp [rotateSigningKeyC, hfresh]

/-- C9 witness: three concurrent callers on one generation share the
single attempt's result, and the coordinator comes back fresh. -/
theorem rotation_coalesced_witness :
    (runCallers (fun _ => .error .lockOccupied) 3 none).1 =
      [.error .lockOccupied, .error .lockOccupied, .error .lockOccupied] ∧
    (runCallers (fun _ => .error .lockOccupied) 3 none).2.2 = 1 ∧
    (rotateSigningKeyC
      { ring :=
          { store := { data := [], currentLockToken := some "held" }
            options := defaultOptions
            currentSigningKey :=
              some { id := "k0", key := 3, rotatedAt := 5
                     verifiableUntil := 20 } }
        rotatehOnce := none }
      { genRSAKey := .ok 42, genID := .ok "newid000"
        marshalPriv := stdMarshalPriv, marshalPub := stdMarshalPub
        freshLockToken := "tok" }
      10 true).2.rotatehOnce = none := by
  have h := rotation_coalesced (fun _ => .error .lockOccupied) 3
    (by omega)
  refine ⟨h.1, h.2.1, ?_⟩
  exact (h.2.2
    { ring :=
        { store := { data := [], currentLockToken := some "held" }
          options := defaultOptions
          currentSigningKey :=
            some { id := "k0", key := 3, rotatedAt := 5
                   verifiableUntil := 20 } }
      rotatehOnce := none }
    { genRSAKey := .ok 42, genID := .ok "newid000"
      marshalPriv := stdMarshalPriv, marshalPub := stdMarshalPub
      freshLockToken := "tok" }
    10 true rfl).1

/-- C10 witness: a concrete round trip. -/
theorem signingKey_roundtrip_witness :
    storedPrivateKeyToSigningKey
      { rotationFrequency := 10, verificationPeriod := 25, keySize := 2048
        idAlphabet := "ab", idLength := 8 }
      { id := "newid000", isPrivate := true, expiresAt := 110
        data := .pkcs8Private 42 } =
      .ok { id := "newid000", key := 42, rotatedAt := 110
            verifiableUntil := 125 } :=
  signingKey_roundtrip
    { rotationFrequency := 10, verificationPeriod := 25, keySize := 2048
      idAlphabet := "ab", idLength := 8 }
    { genRSAKey := .ok 42, genID := .ok "newid000"
      marshalPriv := stdMarshalPriv, marshalPub := stdMarshalPub
      freshLockToken := "tok" }
    100
    { id := "newid000", key := 42, rotatedAt := 110, verifiableUntil := 125 }
    rfl rfl
    { id := "newid000", isPrivate := true, expiresAt := 110
      data := .pkcs8Private 42 }
    { id := "pub:newid000", isPrivate := false, expiresAt := 125
      data := .pkixPublic 42 }
    rfl

end HRing
